import Mathlib

/-!
Shallow embedding of the labhub PR-mirror and command-relay core
(`src/github.rs`), with theorems checking the specification's claims
against it.

Rust `i64` values (PR numbers, pipeline ids) are modelled as `Int`;
Rust `String` as `String`; `Option<T>` as `Option T`; `Result<T, E>` as
`Except E T`.  The global `HashMap` repo cache is modelled as explicit
state (an association list from base SSH URL to a clone identifier);
network and git side effects are modelled by oracles and by explicit
event traces.
-/

namespace Labhub

/-- Rust `errors::GitError { message: String }`. -/
structure GitError where
  message : String
deriving DecidableEq, Repr

/-- Rust `errors::RequestErrorResult` (only the constructors' payloads the
dispatcher can produce are kept: a JSON error message). -/
inductive RequestErrorResult where
  | badRequest (msg : String)
  | responseError (msg : String)
deriving DecidableEq, Repr

/-- Projection of a GitHub repository object as used by `github.rs`:
`ssh_url`, `full_name`, `fork`. -/
structure RepoInfo where
  ssh_url : String
  full_name : String
  fork : Bool
deriving DecidableEq, Repr

/-- Projection of a PR branch (`head` / `base`): the branch name
(serde key `ref`, Rust field `ref_key`) and its repository. -/
structure PrBranch where
  ref_key : String
  repo : RepoInfo
deriving DecidableEq, Repr

/-- Projection of the `pull_request` object: `number`, `head`, `base`. -/
structure PullRequestInner where
  number : Int
  head : PrBranch
  base : PrBranch
deriving DecidableEq, Repr

/-- Projection of a GitHub `pull_request` event payload as consumed by
`github.rs`: `action`, `pull_request`, `repository`. -/
structure PullRequest where
  action : String
  pull_request : PullRequestInner
  repository : RepoInfo
deriving DecidableEq, Repr

/-- Rust `github::PullRequest::is_fork` (src/github.rs:293-297). -/
def PullRequest.is_fork (pr : PullRequest) : Bool :=
  pr.pull_request.head.repo.fork

/-- Rust `PrHandle` (src/github.rs:83-92). -/
structure PrHandle where
  base_full_name : String
  head_full_name : String
  github_remote : String
  gitlab_remote : String
  gitref : String
  github_clone_url : String
  pr_number : Int
deriving DecidableEq, Repr

/-- Rust `PrHandle::new` (src/github.rs:94-106). -/
def PrHandle.new (pr : PullRequest) : PrHandle :=
  { gitref := pr.pull_request.head.ref_key
    pr_number := pr.pull_request.number
    github_clone_url := pr.pull_request.head.repo.ssh_url
    github_remote := "github-" ++ toString pr.pull_request.number
    gitlab_remote := "gitlab"
    base_full_name := pr.pull_request.base.repo.full_name
    head_full_name := pr.pull_request.head.repo.full_name }

/-- The ref name and force flag passed to `self.reference(&gitlab_ref, id,
true, "new ref")` in Rust `create_ref_for_pr` (src/github.rs:144-157):
`format!("refs/heads/pr-{}/{}/{}", pr_number, head_full_name, gitref)`,
force = `true`. -/
def create_ref_for_pr_target (h : PrHandle) : String × Bool :=
  ("refs/heads/pr-" ++ toString h.pr_number ++ "/" ++ h.head_full_name
      ++ "/" ++ h.gitref,
   true)

/-- The refspec pushed by Rust `push_pr_ref` (src/github.rs:159-184):
`format!("+refs/heads/pr-{}/{}/{}:refs/heads/pr-{}/{}/{}", ...)` with the
same three fields repeated. -/
def push_pr_ref_refspec (h : PrHandle) : String :=
  "+refs/heads/pr-" ++ toString h.pr_number ++ "/" ++ h.head_full_name
    ++ "/" ++ h.gitref
    ++ ":refs/heads/pr-" ++ toString h.pr_number ++ "/" ++ h.head_full_name
    ++ "/" ++ h.gitref

/-- The refspec pushed by Rust `delete_pr_ref` (src/github.rs:186-206):
`format!(":refs/heads/pr-{}/{}/{}", ...)`. -/
def delete_pr_ref_refspec (h : PrHandle) : String :=
  ":refs/heads/pr-" ++ toString h.pr_number ++ "/" ++ h.head_full_name
    ++ "/" ++ h.gitref

/-- Rust `get_gitlab_repo_name` (src/github.rs:32-40); the configured
`hub_to_lab` map is passed explicitly as an association list. -/
def get_gitlab_repo_name (hubToLab : List (String × String))
    (github_repo_full_name : String) : String :=
  match hubToLab.lookup github_repo_full_name with
  | some v => v
  | none => github_repo_full_name

/-- The five operations of the Rust `RepositoryExt` trait
(src/github.rs:74-81). -/
inductive GitOp where
  | add_remotes
  | fetch_github_remote
  | create_ref_for_pr
  | push_pr_ref
  | delete_pr_ref
deriving DecidableEq, Repr

/-- Observable side effects of the mirror flow: a `clone_repo` invocation
for a URL, or a `RepositoryExt` operation driven with a `PrHandle`. -/
inductive Event where
  | cloneAttempt (url : String)
  | gitOp (op : GitOp) (handle : PrHandle)
deriving DecidableEq, Repr

/-- The git operations contained in an event trace. -/
def gitOpsOf (evs : List Event) : List GitOp :=
  evs.filterMap fun e =>
    match e with
    | .gitOp o _ => some o
    | .cloneAttempt _ => none

/-- An oracle giving the outcome of each `RepositoryExt` operation on the
working repository. -/
def GitOracle : Type := GitOp → Except GitError Unit

/-- Rust `handle_pr_closed_with_repo` (src/github.rs:236-248): drive
`add_remotes` then `delete_pr_ref` through `?`, returning the result and
the trace of operations attempted. -/
def handle_pr_closed_with_repo (orac : GitOracle) (pr : PullRequest) :
    Except GitError String × List Event :=
  let h := PrHandle.new pr
  match orac .add_remotes with
  | .error e => (.error e, [.gitOp .add_remotes h])
  | .ok _ =>
    match orac .delete_pr_ref with
    | .error e => (.error e, [.gitOp .add_remotes h, .gitOp .delete_pr_ref h])
    | .ok _ => (.ok "deleted :D",
        [.gitOp .add_remotes h, .gitOp .delete_pr_ref h])

/-- Rust `handle_pr_updated_with_repo` (src/github.rs:276-291): drive
`add_remotes`, `fetch_github_remote`, `create_ref_for_pr`, `push_pr_ref`
through `?`, returning the result and the trace of operations attempted. -/
def handle_pr_updated_with_repo (orac : GitOracle) (pr : PullRequest) :
    Except GitError String × List Event :=
  let h := PrHandle.new pr
  match orac .add_remotes with
  | .error e => (.error e, [.gitOp .add_remotes h])
  | .ok _ =>
    match orac .fetch_github_remote with
    | .error e => (.error e,
        [.gitOp .add_remotes h, .gitOp .fetch_github_remote h])
    | .ok _ =>
      match orac .create_ref_for_pr with
      | .error e => (.error e,
          [.gitOp .add_remotes h, .gitOp .fetch_github_remote h,
           .gitOp .create_ref_for_pr h])
      | .ok _ =>
        match orac .push_pr_ref with
        | .error e => (.error e,
            [.gitOp .add_remotes h, .gitOp .fetch_github_remote h,
             .gitOp .create_ref_for_pr h, .gitOp .push_pr_ref h])
        | .ok _ => (.ok ":)",
            [.gitOp .add_remotes h, .gitOp .fetch_github_remote h,
             .gitOp .create_ref_for_pr h, .gitOp .push_pr_ref h])

/-- The global `REPOS: Mutex<HashMap<String, RepoData>>` cache
(src/github.rs:24-30), modelled as an association list from base SSH URL
to a clone identifier, plus a counter supplying fresh identifiers for new
clones (fresh temporary directories). -/
structure MirrorState where
  repos : List (String × Nat)
  nextId : Nat
deriving DecidableEq, Repr

/-- Rust `clone_repo` (src/github.rs:209-234): attempt to clone `url`
into a fresh temporary directory; success produces a fresh `RepoData`
(modelled by a fresh identifier), failure a `GitError`.  The success of
the network clone is given by the `cloneOk` oracle. -/
def clone_repo (cloneOk : String → Bool) (st : MirrorState) (url : String) :
    Except GitError (Nat × MirrorState) :=
  if cloneOk url then .ok (st.nextId, ⟨st.repos, st.nextId + 1⟩)
  else .error ⟨"Error cloning repo: " ++ url⟩

/-- The Rust expression
`repos.entry(url.clone()).or_insert(clone_repo(url.as_str())?)`
(src/github.rs:254-258 and 267-271).  In Rust the argument of
`or_insert` is evaluated eagerly, so `clone_repo` runs before the cache
key is consulted: a clone error propagates unconditionally, and on
success the freshly cloned `RepoData` is discarded whenever the key is
already present, whose existing entry is returned. -/
def entry_or_insert_clone (cloneOk : String → Bool) (st : MirrorState)
    (url : String) : Except GitError (Nat × MirrorState) × List Event :=
  (match clone_repo cloneOk st url with
   | .error e => .error e
   | .ok (newId, st') =>
     match st'.repos.lookup url with
     | some existing => .ok (existing, st')
     | none => .ok (newId, ⟨(url, newId) :: st'.repos, st'.nextId⟩),
   [.cloneAttempt url])

/-- Rust `handle_pr_closed` (src/github.rs:250-261): get-or-clone the
working repository for the base SSH URL, then run the closed-PR flow. -/
def handle_pr_closed (cloneOk : String → Bool) (orac : GitOracle)
    (st : MirrorState) (pr : PullRequest) :
    Except GitError String × MirrorState × List Event :=
  let url := pr.repository.ssh_url
  match entry_or_insert_clone cloneOk st url with
  | (.error e, evs) => (.error e, st, evs)
  | (.ok (_, st'), evs) =>
    let r := handle_pr_closed_with_repo orac pr
    (r.1, st', evs ++ r.2)

/-- Rust `handle_pr_updated` (src/github.rs:263-274): get-or-clone the
working repository for the base SSH URL, then run the updated-PR flow. -/
def handle_pr_updated (cloneOk : String → Bool) (orac : GitOracle)
    (st : MirrorState) (pr : PullRequest) :
    Except GitError String × MirrorState × List Event :=
  let url := pr.repository.ssh_url
  match entry_or_insert_clone cloneOk st url with
  | (.error e, evs) => (.error e, st, evs)
  | (.ok (_, st'), evs) =>
    let r := handle_pr_updated_with_repo orac pr
    (r.1, st', evs ++ r.2)

/-- Rust `handle_pr` (src/github.rs:299-314): for fork PRs dispatch on
the action and log (never propagate) the git result; for non-fork PRs do
nothing.  Always returns `Ok(())`. -/
def handle_pr (cloneOk : String → Bool) (orac : GitOracle)
    (st : MirrorState) (pr : PullRequest) :
    Except RequestErrorResult Unit × MirrorState × List Event :=
  if pr.is_fork then
    let r :=
      if pr.action = "closed" then handle_pr_closed cloneOk orac st pr
      else handle_pr_updated cloneOk orac st pr
    (.ok (), r.2)
  else (.ok (), st, [])

/-- The `"pull_request"` arm of Rust `handle_event_body`
(src/github.rs:481-495): gate on the `ExternalPr` feature, decode the
body (decoding is modelled by an already-computed `Except`), gate on the
configured action allow-list, then run `handle_pr` through `?` and
acknowledge.  A decode failure converts to the `BadRequest` variant of
`RequestErrorResult`. -/
def handle_event_body_pull_request (externalPrEnabled : Bool)
    (actionEnabled : String → Bool) (cloneOk : String → Bool)
    (orac : GitOracle) (st : MirrorState)
    (decoded : Except String PullRequest) :
    Except RequestErrorResult String × MirrorState × List Event :=
  if externalPrEnabled then
    match decoded with
    | .error e => (.error (.badRequest e), st, [])
    | .ok pr =>
      if actionEnabled pr.action then
        let r := handle_pr cloneOk orac st pr
        match r.1 with
        | .error err => (.error err, r.2)
        | .ok _ => (.ok "Thanks buddy bro 😍", r.2)
      else (.ok "Thanks buddy bro 😍", st, [])
  else (.ok "Thanks buddy bro 😍", st, [])

/-- The sequence of operations obtained by running `ops` in order,
stopping at (and including) the first operation that fails: the
specification-side description of the mirror flows' operation order. -/
def opsTrace (orac : GitOracle) : List GitOp → List GitOp
  | [] => []
  | op :: rest =>
    match orac op with
    | .ok _ => op :: opsTrace orac rest
    | .error _ => [op]

theorem string_append_assoc (a b c : String) :
    a ++ b ++ c = a ++ (b ++ c) := by
  cases a with | _ a =>
  cases b with | _ b =>
  cases c with | _ c =>
  show String.mk (a ++ b ++ c) = String.mk (a ++ (b ++ c))
  rw [List.append_assoc]

theorem lookup_mem : ∀ {m : List (String × String)} {k v : String},
    m.lookup k = some v → (k, v) ∈ m := by
  intro m
  induction m with
  | nil => intro k v h; simp [List.lookup] at h
  | cons hd tl ih =>
    intro k v h
    obtain ⟨k', v'⟩ := hd
    by_cases hk : k = k'
    · subst hk
      simp [List.lookup] at h
      simp [h]
    · have hb : (k == k') = false := by simp [hk]
      simp only [List.lookup, hb] at h
      exact List.mem_cons_of_mem _ (ih h)

/-- C8: `get_gitlab_repo_name` returns the `hub_to_lab` value at `x` when
`x` is a key and `x` itself otherwise; and when the map's image is
disjoint from its domain the lookup is idempotent. -/
theorem get_gitlab_repo_name_spec (m : List (String × String)) (x : String) :
    (∀ v, m.lookup x = some v → get_gitlab_repo_name m x = v) ∧
    (m.lookup x = none → get_gitlab_repo_name m x = x) ∧
    ((∀ kv ∈ m, m.lookup kv.2 = none) →
      get_gitlab_repo_name m (get_gitlab_repo_name m x)
        = get_gitlab_repo_name m x) := by
  refine ⟨?_, ?_, ?_⟩
  · intro v h; simp [get_gitlab_repo_name, h]
  · intro h; simp [get_gitlab_repo_name, h]
  · intro hdisj
    cases h : m.lookup x with
    | none => simp [get_gitlab_repo_name, h]
    | some v =>
      have hv : m.lookup v = none := hdisj (x, v) (lookup_mem h)
      simp [get_gitlab_repo_name, h, hv]

/-- Witness for C8 at the concrete map `[("a", "b")]`. -/
theorem get_gitlab_repo_name_spec_witness :
    get_gitlab_repo_name [("a", "b")] "a" = "b" ∧
    get_gitlab_repo_name [("a", "b")] "z" = "z" ∧
    get_gitlab_repo_name [("a", "b")] (get_gitlab_repo_name [("a", "b")] "a")
      = get_gitlab_repo_name [("a", "b")] "a" :=
  ⟨(get_gitlab_repo_name_spec [("a", "b")] "a").1 "b" (by decide),
   (get_gitlab_repo_name_spec [("a", "b")] "z").2.1 (by decide),
   (get_gitlab_repo_name_spec [("a", "b")] "a").2.2 (by decide)⟩

/-- C2: the three ref-level git operations agree on one mirror-ref name
`"refs/heads/pr-" ++ number ++ "/" ++ head_full_name ++ "/" ++ gitref`:
`create_ref_for_pr` creates exactly this ref with force = true,
`push_pr_ref` pushes `"+" ++ ref ++ ":" ++ ref`, `delete_pr_ref` pushes
`":" ++ ref`, and the ref begins with `"refs/heads/pr-"`. -/
theorem pr_ref_operations_agree (p : PullRequest) :
    create_ref_for_pr_target (PrHandle.new p)
      = ("refs/heads/pr-" ++ toString p.pull_request.number ++ "/"
          ++ p.pull_request.head.repo.full_name ++ "/"
          ++ p.pull_request.head.ref_key, true) ∧
    push_pr_ref_refspec (PrHandle.new p)
      = "+" ++ ("refs/heads/pr-" ++ toString p.pull_request.number ++ "/"
          ++ p.pull_request.head.repo.full_name ++ "/"
          ++ p.pull_request.head.ref_key)
        ++ ":" ++ ("refs/heads/pr-" ++ toString p.pull_request.number ++ "/"
          ++ p.pull_request.head.repo.full_name ++ "/"
          ++ p.pull_request.head.ref_key) ∧
    delete_pr_ref_refspec (PrHandle.new p)
      = ":" ++ ("refs/heads/pr-" ++ toString p.pull_request.number ++ "/"
          ++ p.pull_request.head.repo.full_name ++ "/"
          ++ p.pull_request.head.ref_key) ∧
    ∃ rest, ("refs/heads/pr-" ++ toString p.pull_request.number ++ "/"
          ++ p.pull_request.head.repo.full_name ++ "/"
          ++ p.pull_request.head.ref_key) = "refs/heads/pr-" ++ rest := by
  have d1 : ("+refs/heads/pr-" : String).data
      = '+' :: ("refs/heads/pr-" : String).data := rfl
  have d2 : (":refs/heads/pr-" : String).data
      = ':' :: ("refs/heads/pr-" : String).data := rfl
  have d3 : ("+" : String).data = ['+'] := rfl
  have d4 : (":" : String).data = [':'] := rfl
  refine ⟨rfl, ?_, ?_, ?_⟩
  · apply String.ext
    simp [push_pr_ref_refspec, PrHandle.new, String.data_append, d1, d2, d3,
      d4, List.append_assoc]
  · apply String.ext
    simp [delete_pr_ref_refspec, PrHandle.new, String.data_append, d2, d4,
      List.append_assoc]
  · exact ⟨toString p.pull_request.number ++ ("/"
        ++ (p.pull_request.head.repo.full_name ++ ("/"
          ++ p.pull_request.head.ref_key))),
      by simp [string_append_assoc]⟩

@[simp]
theorem gitOpsOf_nil : gitOpsOf [] = [] := rfl

@[simp]
theorem gitOpsOf_cons_clone (u : String) (t : List Event) :
    gitOpsOf (.cloneAttempt u :: t) = gitOpsOf t := by
  simp [gitOpsOf]

@[simp]
theorem gitOpsOf_cons_op (o : GitOp) (h : PrHandle) (t : List Event) :
    gitOpsOf (.gitOp o h :: t) = o :: gitOpsOf t := by
  simp [gitOpsOf]

theorem gitOpsOf_closed_with_repo (orac : GitOracle) (pr : PullRequest) :
    gitOpsOf (handle_pr_closed_with_repo orac pr).2
      = opsTrace orac [.add_remotes, .delete_pr_ref] := by
  cases h1 : orac GitOp.add_remotes <;>
    cases h2 : orac GitOp.delete_pr_ref <;>
    simp [handle_pr_closed_with_repo, opsTrace, h1, h2]

theorem gitOpsOf_updated_with_repo (orac : GitOracle) (pr : PullRequest) :
    gitOpsOf (handle_pr_updated_with_repo orac pr).2
      = opsTrace orac [.add_remotes, .fetch_github_remote,
          .create_ref_for_pr, .push_pr_ref] := by
  cases h1 : orac GitOp.add_remotes <;>
    cases h2 : orac GitOp.fetch_github_remote <;>
    cases h3 : orac GitOp.create_ref_for_pr <;>
    cases h4 : orac GitOp.push_pr_ref <;>
    simp [handle_pr_updated_with_repo, opsTrace, h1, h2, h3, h4]

/-- C3: for a fork PR whose action is enabled and whose working
repository is obtained (clone succeeds), the operations invoked on the
working repository are exactly `add_remotes; delete_pr_ref` when the
action is `"closed"`, and `add_remotes; fetch_github_remote;
create_ref_for_pr; push_pr_ref` for any other enabled action, in that
order, stopping at the first operation that fails. -/
theorem fork_pr_git_operation_order (actionEnabled : String → Bool)
    (cloneOk : String → Bool) (orac : GitOracle) (st : MirrorState)
    (pr : PullRequest) (hfork : pr.is_fork = true)
    (hact : actionEnabled pr.action = true)
    (hclone : cloneOk pr.repository.ssh_url = true) :
    gitOpsOf (handle_event_body_pull_request true actionEnabled cloneOk
        orac st (.ok pr)).2.2
      = opsTrace orac
          (if pr.action = "closed" then [.add_remotes, .delete_pr_ref]
           else [.add_remotes, .fetch_github_remote, .create_ref_for_pr,
                 .push_pr_ref]) := by
  by_cases hc : pr.action = "closed"
  · rw [hc] at hact
    cases hl : st.repos.lookup pr.repository.ssh_url <;>
      simp [handle_event_body_pull_request, hact, handle_pr, hfork, hc,
        handle_pr_closed, entry_or_insert_clone, clone_repo, hclone, hl,
        gitOpsOf_closed_with_repo]
  · cases hl : st.repos.lookup pr.repository.ssh_url <;>
      simp [handle_event_body_pull_request, hact, handle_pr, hfork, hc,
        handle_pr_updated, entry_or_insert_clone, clone_repo, hclone, hl,
        gitOpsOf_updated_with_repo]

/-- A concrete fork-PR payload (action `"opened"`). -/
def prFork : PullRequest :=
  { action := "opened"
    pull_request :=
      { number := 7
        head :=
          { ref_key := "feature"
            repo :=
              { ssh_url := "git@github.com:fork/repo.git"
                full_name := "fork/repo"
                fork := true } }
        base :=
          { ref_key := "master"
            repo :=
              { ssh_url := "git@github.com:base/repo.git"
                full_name := "base/repo"
                fork := false } } }
    repository :=
      { ssh_url := "git@github.com:base/repo.git"
        full_name := "base/repo"
        fork := false } }

/-- The same payload with action `"closed"`. -/
def prForkClosed : PullRequest :=
  { prFork with action := "closed" }

/-- Witness for C3 at a concrete fork payload with an all-success
oracle. -/
theorem fork_pr_git_operation_order_witness :
    gitOpsOf (handle_event_body_pull_request true (fun _ => true)
        (fun _ => true) (fun _ => Except.ok ()) ⟨[], 0⟩
        (.ok prForkClosed)).2.2
      = opsTrace (fun _ => Except.ok ())
          (if prForkClosed.action = "closed"
           then [.add_remotes, .delete_pr_ref]
           else [.add_remotes, .fetch_github_remote, .create_ref_for_pr,
                 .push_pr_ref]) :=
  fork_pr_git_operation_order (fun _ => true) (fun _ => true)
    (fun _ => Except.ok ()) ⟨[], 0⟩ prForkClosed rfl rfl rfl

/-- C4: a non-fork pull_request payload produces no clone, no git
operation, leaves the repo cache unchanged and returns `Ok`. -/
theorem non_fork_pr_no_git_effects (cloneOk : String → Bool)
    (orac : GitOracle) (st : MirrorState) (pr : PullRequest)
    (h : pr.pull_request.head.repo.fork = false) :
    handle_pr cloneOk orac st pr = (.ok (), st, []) := by
  simp [handle_pr, PullRequest.is_fork, h]

/-- A concrete non-fork PR payload. -/
def prNonFork : PullRequest :=
  { prFork with
    pull_request :=
      { prFork.pull_request with
        head :=
          { prFork.pull_request.head with
            repo := { prFork.pull_request.head.repo with fork := false } } } }

/-- Witness for C4 at the concrete non-fork payload. -/
theorem non_fork_pr_no_git_effects_witness :
    handle_pr (fun _ => true) (fun _ => Except.ok ()) ⟨[], 0⟩ prNonFork
      = (.ok (), ⟨[], 0⟩, []) :=
  non_fork_pr_no_git_effects (fun _ => true) (fun _ => Except.ok ())
    ⟨[], 0⟩ prNonFork rfl

theorem handle_pr_result (cloneOk : String → Bool) (orac : GitOracle)
    (st : MirrorState) (pr : PullRequest) :
    (handle_pr cloneOk orac st pr).1 = .ok () := by
  rw [handle_pr]
  split <;> rfl

/-- C5: a `"pull_request"` event whose body decodes successfully is
always acknowledged with `Ok "Thanks buddy bro 😍"`, whatever the git
flow does; the error variant arises only from a body-decode failure
(with the `ExternalPr` feature enabled). -/
theorem pull_request_event_always_acknowledged (externalPrEnabled : Bool)
    (actionEnabled : String → Bool) (cloneOk : String → Bool)
    (orac : GitOracle) (st : MirrorState)
    (decoded : Except String PullRequest) :
    (∀ pr, decoded = .ok pr →
      (handle_event_body_pull_request externalPrEnabled actionEnabled
          cloneOk orac st decoded).1 = .ok "Thanks buddy bro 😍") ∧
    (∀ err, (handle_event_body_pull_request externalPrEnabled actionEnabled
          cloneOk orac st decoded).1 = .error err →
      externalPrEnabled = true ∧
        ∃ msg, decoded = .error msg ∧ err = .badRequest msg) := by
  constructor
  · rintro pr rfl
    cases externalPrEnabled
    · simp [handle_event_body_pull_request]
    · by_cases ha : actionEnabled pr.action <;>
        simp [handle_event_body_pull_request, ha, handle_pr_result]
  · intro err herr
    cases externalPrEnabled
    · simp [handle_event_body_pull_request] at herr
    · cases decoded with
      | error msg =>
        simp [handle_event_body_pull_request] at herr
        exact ⟨rfl, msg, rfl, herr.symm⟩
      | ok pr =>
        by_cases ha : actionEnabled pr.action <;>
          simp [handle_event_body_pull_request, ha, handle_pr_result] at herr

/-- Witness for C5 at a concrete decoded payload. -/
theorem pull_request_event_always_acknowledged_witness :
    (handle_event_body_pull_request true (fun _ => true) (fun _ => true)
        (fun _ => Except.ok ()) ⟨[], 0⟩ (.ok prFork)).1
      = .ok "Thanks buddy bro 😍" :=
  (pull_request_event_always_acknowledged true (fun _ => true)
      (fun _ => true) (fun _ => Except.ok ()) ⟨[], 0⟩ (.ok prFork)).1
    prFork rfl

/-- A cache state whose single entry is the base URL of `prFork`. -/
def cachedState : MirrorState :=
  ⟨[("git@github.com:base/repo.git", 0)], 1⟩

/-- C1 is violated by the code: because Rust evaluates the argument of
`or_insert` eagerly, `clone_repo` is invoked on every event, even when
the base SSH URL already has a cache entry (the fresh clone is then
discarded and the existing entry returned).  Part one: a clone attempt
occurs unconditionally in both `handle_pr_closed` and
`handle_pr_updated`.  Part two: at a concrete state whose cache already
holds the key, the clone attempt still appears in the trace, although
the existing entry (id 0) is the one returned. -/
theorem eager_clone_on_cached_entry :
    (∀ (cloneOk : String → Bool) (orac : GitOracle) (st : MirrorState)
        (pr : PullRequest),
      Event.cloneAttempt pr.repository.ssh_url
          ∈ (handle_pr_closed cloneOk orac st pr).2.2 ∧
      Event.cloneAttempt pr.repository.ssh_url
          ∈ (handle_pr_updated cloneOk orac st pr).2.2) ∧
    (cachedState.repos.lookup prFork.repository.ssh_url = some 0 ∧
     (entry_or_insert_clone (fun _ => true) cachedState
         prFork.repository.ssh_url).1
       = .ok (0, ⟨cachedState.repos, 2⟩) ∧
     Event.cloneAttempt prFork.repository.ssh_url
       ∈ (handle_pr_updated (fun _ => true) (fun _ => Except.ok ())
           cachedState prFork).2.2) := by
  constructor
  · intro cloneOk orac st pr
    constructor
    · unfold handle_pr_closed entry_or_insert_clone clone_repo
      by_cases hc : cloneOk pr.repository.ssh_url
      · simp only [hc, if_true]
        cases hl : st.repos.lookup pr.repository.ssh_url <;> simp [hl]
      · simp [hc]
    · unfold handle_pr_updated entry_or_insert_clone clone_repo
      by_cases hc : cloneOk pr.repository.ssh_url
      · simp only [hc, if_true]
        cases hl : st.repos.lookup pr.repository.ssh_url <;> simp [hl]
      · simp [hc]
  · refine ⟨rfl, rfl, ?_⟩
    decide

/-- The Lab project names passed by Rust `handle_retry_command`
(src/github.rs:395-417) to its three GitLab-side calls:
`find_pipeline_id(&client, &get_gitlab_repo_name(&project), &sha)`,
`retry_pipeline(&client, &project, pipeline_id)` and
`make_ext_url(&project)`, where
`project = get_gitlab_repo_name(&repo_full_name)`. -/
structure RetryProjects where
  pipelines_project : String
  retry_project : String
  ext_url_project : String
deriving DecidableEq, Repr

/-- Project-name computation of Rust `handle_retry_command`
(src/github.rs:395-417). -/
def handle_retry_command_projects (hubToLab : List (String × String))
    (repo_full_name : String) : RetryProjects :=
  let project := get_gitlab_repo_name hubToLab repo_full_name
  { pipelines_project := get_gitlab_repo_name hubToLab project
    retry_project := project
    ext_url_project := project }

/-- C7 as stated is false: with the configured map
`[("a", "b"), ("b", "c")]` and Hub repository name `"a"`, the pipeline
search uses project `"c"` (the name-mapper translation applied twice),
while the single translation of `"a"` is `"b"`. -/
theorem retry_projects_counterexample :
    ¬(handle_retry_command_projects [("a", "b"), ("b", "c")] "a"
        = { pipelines_project :=
              get_gitlab_repo_name [("a", "b"), ("b", "c")] "a"
            retry_project := get_gitlab_repo_name [("a", "b"), ("b", "c")] "a"
            ext_url_project :=
              get_gitlab_repo_name [("a", "b"), ("b", "c")] "a" }) := by
  decide

/-- C7 amended: under the configuration precondition that the
`hub_to_lab` map's image is disjoint from its domain, the pipeline
search, the retry call and the confirmation link all use the same Lab
project, the single name-mapper translation of the Hub repository
name. -/
theorem retry_projects_agree (m : List (String × String)) (x : String)
    (hdisj : ∀ kv ∈ m, m.lookup kv.2 = none) :
    handle_retry_command_projects m x
      = { pipelines_project := get_gitlab_repo_name m x
          retry_project := get_gitlab_repo_name m x
          ext_url_project := get_gitlab_repo_name m x } := by
  have hidem : get_gitlab_repo_name m (get_gitlab_repo_name m x)
      = get_gitlab_repo_name m x := by
    cases h : m.lookup x with
    | none => simp [get_gitlab_repo_name, h]
    | some v =>
      have hv : m.lookup v = none := hdisj (x, v) (lookup_mem h)
      simp [get_gitlab_repo_name, h, hv]
  simp [handle_retry_command_projects, hidem]

/-- Witness for the amended C7 at the concrete map `[("a", "b")]`. -/
theorem retry_projects_agree_witness :
    handle_retry_command_projects [("a", "b")] "a"
      = { pipelines_project := get_gitlab_repo_name [("a", "b")] "a"
          retry_project := get_gitlab_repo_name [("a", "b")] "a"
          ext_url_project := get_gitlab_repo_name [("a", "b")] "a" } :=
  retry_projects_agree [("a", "b")] "a" (by decide)

/-- Rust `commands::CommandError` (the four parse-error variants
matched in src/github.rs:434-460). -/
inductive CommandError where
  | unknownCommand
  | badUsername
  | invalidLength
  | invalidFormat
deriving DecidableEq, Repr

/-- Rust `commands::CommandAction`; today only `Retry`. -/
inductive CommandAction where
  | retry
deriving DecidableEq, Repr

/-- Projection of a GitHub `issue_comment` event payload as consumed by
`github.rs`: `action`, `issue.number`, whether `issue.pull_request` is
present, `comment.body`, `repository.full_name`, `sender.login`. -/
structure IssueComment where
  action : String
  issue_number : Int
  issue_has_pull_request : Bool
  comment_body : String
  repository_full_name : String
  sender_login : Option String
deriving DecidableEq, Repr

/-- The continuation chosen by Rust `handle_pr_ic`
(src/github.rs:419-461) after parsing the comment body. -/
inductive IcStep where
  | writeUnknownReply
  | commandNotEnabled
  | runRetry
  | errorBadUsername
  | errorInvalidLength
  | errorInvalidFormat
deriving DecidableEq, Repr

/-- Rust `handle_pr_ic` (src/github.rs:419-461): parse the comment body
against the configured bot username and dispatch.  The body parser
(`commands::parse_body`) and the command-enabled check are passed as
parameters; note that the parser receives only the comment body and the
username, and that the source's self-comment check on `ic.sender.login`
is commented out. -/
def handle_pr_ic
    (parse : String → String → Except CommandError CommandAction)
    (commandEnabled : CommandAction → Bool) (username : String)
    (ic : IssueComment) : IcStep :=
  match parse ic.comment_body username with
  | .error .unknownCommand => .writeUnknownReply
  | .ok cmd =>
    if commandEnabled cmd then
      match cmd with
      | .retry => .runRetry
    else .commandNotEnabled
  | .error .badUsername => .errorBadUsername
  | .error .invalidLength => .errorInvalidLength
  | .error .invalidFormat => .errorInvalidFormat

/-- Rust `handle_ic` (src/github.rs:463-472): only comments attached to
a PR are handled. -/
def handle_ic
    (parse : String → String → Except CommandError CommandAction)
    (commandEnabled : CommandAction → Bool) (username : String)
    (ic : IssueComment) : Option IcStep :=
  if ic.issue_has_pull_request then
    some (handle_pr_ic parse commandEnabled username ic)
  else none

/-- The `"issue_comment"` arm of Rust `handle_event_body`
(src/github.rs:496-513): gate on the `Commands` feature, decode the
body, run `handle_ic`. -/
def handle_event_body_issue_comment (commandsEnabled : Bool)
    (parse : String → String → Except CommandError CommandAction)
    (commandEnabled : CommandAction → Bool) (username : String)
    (decoded : Except String IssueComment) :
    Except RequestErrorResult String × Option IcStep :=
  if commandsEnabled then
    match decoded with
    | .error e => (.error (.badRequest e), none)
    | .ok ic => (.ok "Issue comment received 🥳",
        handle_ic parse commandEnabled username ic)
  else (.ok "Issue comment received 🥳", none)

/-- C9: with the Commands feature enabled, an issue comment attached to
a PR is parsed and relayed regardless of `sender.login`: changing the
sender (in particular to the configured bot username itself) leaves the
dispatch unchanged, and a comment whose sender is the bot reaches
`handle_pr_ic` exactly like any other. -/
theorem no_self_comment_filter
    (parse : String → String → Except CommandError CommandAction)
    (commandEnabled : CommandAction → Bool) (username : String)
    (ic : IssueComment) (s : Option String)
    (hpr : ic.issue_has_pull_request = true) :
    handle_event_body_issue_comment true parse commandEnabled username
        (.ok { ic with sender_login := s })
      = handle_event_body_issue_comment true parse commandEnabled username
        (.ok ic) ∧
    (handle_event_body_issue_comment true parse commandEnabled username
        (.ok { ic with sender_login := some username })).2
      = some (handle_pr_ic parse commandEnabled username ic) := by
  constructor
  · rfl
  · simp [handle_event_body_issue_comment, handle_ic, hpr]
    rfl

/-- Witness for C9 at a concrete comment from the bot itself. -/
theorem no_self_comment_filter_witness :
    (handle_event_body_issue_comment true
        (fun _ _ => Except.ok CommandAction.retry) (fun _ => true) "bot"
        (.ok { action := "created", issue_number := 1
               issue_has_pull_request := true
               comment_body := "@bot retry"
               repository_full_name := "org/repo"
               sender_login := some "bot" })).2
      = some (handle_pr_ic (fun _ _ => Except.ok CommandAction.retry)
          (fun _ => true) "bot"
          { action := "created", issue_number := 1
            issue_has_pull_request := true
            comment_body := "@bot retry"
            repository_full_name := "org/repo"
            sender_login := some "bot" }) :=
  (no_self_comment_filter (fun _ _ => Except.ok CommandAction.retry)
      (fun _ => true) "bot"
      { action := "created", issue_number := 1
        issue_has_pull_request := true
        comment_body := "@bot retry"
        repository_full_name := "org/repo"
        sender_login := some "bot" }
      (some "bot") rfl).2

/-- GitLab pipeline record projection: optional `id` and `sha`
(consumed by src/github.rs:377-382). -/
structure PipelineRecord where
  id : Option Int
  sha : Option String
deriving DecidableEq, Repr

/-- The per-page selection of Rust `find_pipeline_id`
(src/github.rs:377-380): keep records having both `sha` and `id`
present, then find the first whose `sha` equals the target. -/
def pipelineMatch (pipelines : List PipelineRecord) (sha : String) :
    Option PipelineRecord :=
  (pipelines.filter fun p => p.sha.isSome && p.id.isSome).find?
    fun p => p.sha == some sha

/-- Rust `find_pipeline_id` (src/github.rs:368-393).  The GitLab API is
modelled by `pages : ℕ → List PipelineRecord`, giving the result of
`get_pipelines(client, project, page, 100)` for each page number.  The
`while result_len == 100` loop is given explicit fuel; `none` means the
loop has not finished within `fuel` iterations.  The result also
records every `get_pipelines` request as a `(page, per_page)` pair. -/
def find_pipeline_id (pages : Nat → List PipelineRecord)
    (project sha : String) :
    Nat → Nat → Option (Except GitError Int × List (Nat × Nat))
  | 0, _ => none
  | fuel + 1, page =>
    let pipelines := pages page
    match pipelineMatch pipelines sha with
    | some p => some (.ok (p.id.getD 0), [(page, 100)])
    | none =>
      if pipelines.length = 100 then
        match find_pipeline_id pages project sha fuel (page + 1) with
        | some (r, reqs) => some (r, (page, 100) :: reqs)
        | none => none
      else
        some (.error ⟨"Unable to find pipeline for project=" ++ project
            ++ " sha=" ++ sha⟩, [(page, 100)])

theorem find?_split {α : Type} (p : α → Bool) :
    ∀ {l : List α} {b : α}, l.find? p = some b →
      ∃ l₁ l₂, l = l₁ ++ b :: l₂ ∧ ∀ a ∈ l₁, p a = false := by
  intro l
  induction l with
  | nil => intro b h; simp at h
  | cons a l ih =>
    intro b h
    by_cases hpa : p a
    · rw [List.find?_cons_of_pos _ hpa] at h
      cases h
      exact ⟨[], l, rfl, by simp⟩
    · rw [List.find?_cons_of_neg _ hpa] at h
      obtain ⟨l₁, l₂, hsplit, hnone⟩ := ih h
      refine ⟨a :: l₁, l₂, by rw [hsplit]; rfl, ?_⟩
      intro x hx
      rcases List.mem_cons.mp hx with rfl | hx
      · simpa using hpa
      · exact hnone x hx

theorem pipelineMatch_some {l : List PipelineRecord} {sha : String}
    {p : PipelineRecord} (h : pipelineMatch l sha = some p) :
    p ∈ l ∧ p.sha = some sha ∧ ∃ m, p.id = some m := by
  have hmem := List.mem_of_find?_eq_some h
  have hpred := List.find?_some h
  obtain ⟨hl, hf⟩ := List.mem_filter.mp hmem
  refine ⟨hl, ?_, ?_⟩
  · exact eq_of_beq hpred
  · have hid : p.id.isSome = true := by
      have := (Bool.and_eq_true _ _).mp hf
      exact this.2
    exact Option.isSome_iff_exists.mp hid

theorem find_pipeline_id_run_spec (pages : Nat → List PipelineRecord)
    (project sha : String) :
    ∀ (fuel page : Nat) (res : Except GitError Int)
      (reqs : List (Nat × Nat)),
      find_pipeline_id pages project sha fuel page = some (res, reqs) →
      1 ≤ reqs.length ∧
      reqs = (List.range' page reqs.length).map (fun i => (i, 100)) ∧
      (∀ i, page ≤ i → i + 1 < page + reqs.length →
        pipelineMatch (pages i) sha = none ∧ (pages i).length = 100) ∧
      (∀ n, res = .ok n →
        ∃ p l₁ l₂,
          (pages (page + reqs.length - 1)).filter
              (fun q => q.sha.isSome && q.id.isSome) = l₁ ++ p :: l₂ ∧
          (∀ q ∈ l₁, q.sha ≠ some sha) ∧
          p ∈ pages (page + reqs.length - 1) ∧ p.id = some n ∧
          p.sha = some sha) ∧
      (∀ e, res = .error e →
        pipelineMatch (pages (page + reqs.length - 1)) sha = none ∧
        (pages (page + reqs.length - 1)).length ≠ 100 ∧
        e = ⟨"Unable to find pipeline for project=" ++ project
            ++ " sha=" ++ sha⟩) := by
  intro fuel
  induction fuel with
  | zero => intro page res reqs h; simp [find_pipeline_id] at h
  | succ fuel ih =>
    intro page res reqs h
    rw [find_pipeline_id] at h
    cases hm : pipelineMatch (pages page) sha with
    | some p =>
      simp only [hm] at h
      obtain ⟨hres, hreqs⟩ : Except.ok (p.id.getD 0) = res
          ∧ [((page : Nat), (100 : Nat))] = reqs := by
        have := Option.some.inj h
        exact ⟨congrArg Prod.fst this, congrArg Prod.snd this⟩
      subst hres; subst hreqs
      refine ⟨by simp, by simp [List.range'], ?_, ?_, ?_⟩
      · intro i hi1 hi2
        simp only [List.length_singleton] at hi2
        omega
      · intro n hn
        obtain ⟨hl, hsha, m, hid⟩ := pipelineMatch_some hm
        have hgn : p.id.getD 0 = n := Except.ok.inj hn
        rw [hid] at hgn
        simp only [Option.getD_some] at hgn
        have hm' : ((pages page).filter
              fun q => q.sha.isSome && q.id.isSome).find?
            (fun q => q.sha == some sha) = some p := hm
        obtain ⟨l₁, l₂, hsplit, hnone⟩ := find?_split _ hm'
        simp only [List.length_singleton, Nat.add_sub_cancel]
        refine ⟨p, l₁, l₂, hsplit, ?_, hl, by rw [hid, hgn], hsha⟩
        intro q hq heq
        have hf := hnone q hq
        rw [heq] at hf
        simp at hf
      · intro e he; cases he
    | none =>
      simp only [hm] at h
      by_cases hlen : (pages page).length = 100
      · simp only [hlen, if_true] at h
        cases hrec : find_pipeline_id pages project sha fuel (page + 1) with
        | none => rw [hrec] at h; cases h
        | some v =>
          obtain ⟨r, reqs'⟩ := v
          rw [hrec] at h
          obtain ⟨hres, hreqs⟩ : r = res
              ∧ ((page : Nat), (100 : Nat)) :: reqs' = reqs := by
            have := Option.some.inj h
            exact ⟨congrArg Prod.fst this, congrArg Prod.snd this⟩
          subst hres; subst hreqs
          obtain ⟨ih1, ih2, ih3, ih4, ih5⟩ := ih (page + 1) r reqs' hrec
          have hlast : page + (reqs'.length + 1) - 1
              = page + 1 + reqs'.length - 1 := by omega
          refine ⟨by simp, ?_, ?_, ?_, ?_⟩
          · simp only [List.length_cons]
            rw [List.range'_succ, List.map_cons]
            exact congrArg _ ih2
          · intro i hi1 hi2
            rcases Nat.eq_or_lt_of_le hi1 with heq | hlt
            · subst heq; exact ⟨hm, hlen⟩
            · exact ih3 i hlt (by simp at hi2; omega)
          · intro n hn
            simp only [List.length_cons, hlast]
            exact ih4 n hn
          · intro e he
            simp only [List.length_cons, hlast]
            exact ih5 e he
      · simp only [hlen, if_false] at h
        obtain ⟨hres, hreqs⟩ :
            (Except.error (⟨"Unable to find pipeline for project="
                ++ project ++ " sha=" ++ sha⟩ : GitError)
              : Except GitError Int) = res
            ∧ [((page : Nat), (100 : Nat))] = reqs := by
          have := Option.some.inj h
          exact ⟨congrArg Prod.fst this, congrArg Prod.snd this⟩
        subst hres; subst hreqs
        refine ⟨by simp, by simp [List.range'], ?_, ?_, ?_⟩
        · intro i hi1 hi2
          simp only [List.length_singleton] at hi2
          omega
        · intro n hn; cases hn
        · intro e he
          have he' := Except.error.inj he
          subst he'
          simp only [List.length_singleton, Nat.add_sub_cancel]
          exact ⟨hm, hlen, by trivial⟩

/-- C6: starting from page 1, `find_pipeline_id` requests consecutive
pages `1, 2, ...` with `per_page = 100`; records lacking `id` or `sha`
are ignored; a successful result is the `id` of the FIRST remaining
(both-fields-present) record of the last requested page whose `sha`
equals the target — the remaining records of that page split as
`l₁ ++ p :: l₂` with no record of `l₁` matching — and no further page is
requested after a match, every earlier page having no match and exactly
100 records; and the error result arises exactly on a matchless page of
fewer than 100 records, with the "Unable to find pipeline" message, no
further page being requested. -/
theorem find_pipeline_id_pagination (pages : Nat → List PipelineRecord)
    (project sha : String) (fuel : Nat) (res : Except GitError Int)
    (reqs : List (Nat × Nat))
    (h : find_pipeline_id pages project sha fuel 1 = some (res, reqs)) :
    1 ≤ reqs.length ∧
    reqs = (List.range' 1 reqs.length).map (fun i => (i, 100)) ∧
    (∀ i, 1 ≤ i → i + 1 < 1 + reqs.length →
      pipelineMatch (pages i) sha = none ∧ (pages i).length = 100) ∧
    (∀ n, res = .ok n →
      ∃ p l₁ l₂,
        (pages reqs.length).filter (fun q => q.sha.isSome && q.id.isSome)
          = l₁ ++ p :: l₂ ∧
        (∀ q ∈ l₁, q.sha ≠ some sha) ∧
        p ∈ pages reqs.length ∧ p.id = some n ∧ p.sha = some sha) ∧
    (∀ e, res = .error e →
      pipelineMatch (pages reqs.length) sha = none ∧
      (pages reqs.length).length ≠ 100 ∧
      e = ⟨"Unable to find pipeline for project=" ++ project
          ++ " sha=" ++ sha⟩) := by
  obtain ⟨h1, h2, h3, h4, h5⟩ :=
    find_pipeline_id_run_spec pages project sha fuel 1 res reqs h
  have hlast : 1 + reqs.length - 1 = reqs.length := by omega
  rw [hlast] at h4 h5
  exact ⟨h1, h2, h3, h4, h5⟩

/-- A pipeline source whose every page is the single matching record
`{id: 7, sha: "abc"}`. -/
def onePage : Nat → List PipelineRecord :=
  fun _ => [⟨some 7, some "abc"⟩]

/-- Witness for C6: on `onePage` the search succeeds on page 1. -/
theorem find_pipeline_id_pagination_witness :
    find_pipeline_id onePage "proj" "abc" 1 1
      = some (.ok 7, [(1, 100)]) ∧
    (∃ p l₁ l₂,
      (onePage 1).filter (fun q => q.sha.isSome && q.id.isSome)
        = l₁ ++ p :: l₂ ∧
      (∀ q ∈ l₁, q.sha ≠ some "abc") ∧
      p ∈ onePage 1 ∧ p.id = some 7 ∧ p.sha = some "abc") :=
  ⟨rfl,
   (find_pipeline_id_pagination onePage "proj" "abc" 1 (.ok 7)
       [(1, 100)] rfl).2.2.2.1 7 rfl⟩

theorem find_pipeline_id_stops (pages : Nat → List PipelineRecord)
    (project sha : String) :
    ∀ (d page : Nat),
      (pipelineMatch (pages (page + d)) sha ≠ none ∨
        (pages (page + d)).length ≠ 100) →
      find_pipeline_id pages project sha (d + 1) page ≠ none := by
  intro d
  induction d with
  | zero =>
    intro page hstop
    rw [find_pipeline_id]
    cases hm : pipelineMatch (pages page) sha with
    | some p => simp
    | none =>
      have hl : (pages page).length ≠ 100 := by
        rcases hstop with hs | hs
        · exact absurd hm hs
        · exact hs
      simp [hl]
  | succ d ih =>
    intro page hstop
    rw [find_pipeline_id]
    cases hm : pipelineMatch (pages page) sha with
    | some p => simp
    | none =>
      by_cases hl : (pages page).length = 100
      · simp only [hl, if_true]
        have hne := ih (page + 1) (by
          have harith : page + 1 + d = page + (d + 1) := by omega
          rw [harith]
          exact hstop)
        cases hrec : find_pipeline_id pages project sha (d + 1) (page + 1)
          with
        | none => exact absurd hrec hne
        | some v => obtain ⟨r, reqs⟩ := v; simp [hrec]
      · simp [hl]

/-- A record whose `sha` never matches the searched-for target. -/
def endlessRecord : PipelineRecord :=
  ⟨some 1, some "aaaa"⟩

/-- A pipeline source every page of which is exactly 100 non-matching
records. -/
def endlessPages : Nat → List PipelineRecord :=
  fun _ => List.replicate 100 endlessRecord

theorem pipelineMatch_replicate_none :
    ∀ n, pipelineMatch (List.replicate n endlessRecord) "bbbb" = none := by
  intro n
  induction n with
  | zero => rfl
  | succ n ih =>
    have h1 : (endlessRecord.sha.isSome && endlessRecord.id.isSome)
        = true := rfl
    have h2 : (endlessRecord.sha == some "bbbb") = false := by decide
    rw [List.replicate_succ endlessRecord n]
    simp only [pipelineMatch, List.filter_cons, h1, if_true,
      List.find?_cons, h2] at ih ⊢
    exact ih

/-- C10: `find_pipeline_id` terminates (returns within some fuel bound)
for every pipeline source that has a page which either contains a match
or has length other than 100; and the page loop is not unconditionally
terminating: on an endless sequence of exactly-100-record non-matching
pages it returns within no fuel bound. -/
theorem find_pipeline_id_termination :
    (∀ (pages : Nat → List PipelineRecord) (project sha : String),
      (∃ n, 1 ≤ n ∧ (pipelineMatch (pages n) sha ≠ none ∨
          (pages n).length ≠ 100)) →
      ∃ fuel r, find_pipeline_id pages project sha fuel 1 = some r) ∧
    (∀ fuel, find_pipeline_id endlessPages "proj" "bbbb" fuel 1 = none) := by
  constructor
  · rintro pages project sha ⟨n, hn, hstop⟩
    have hne := find_pipeline_id_stops pages project sha (n - 1) 1 (by
      have harith : 1 + (n - 1) = n := by omega
      rw [harith]
      exact hstop)
    cases hr : find_pipeline_id pages project sha (n - 1 + 1) 1 with
    | none => exact absurd hr hne
    | some r => exact ⟨n - 1 + 1, r, hr⟩
  · have key : ∀ fuel page,
        find_pipeline_id endlessPages "proj" "bbbb" fuel page = none := by
      intro fuel
      induction fuel with
      | zero => intro page; rfl
      | succ fuel ih =>
        intro page
        rw [find_pipeline_id]
        have hm : pipelineMatch (endlessPages page) "bbbb" = none :=
          pipelineMatch_replicate_none 100
        have hlen : (endlessPages page).length = 100 := by
          simp [endlessPages]
        simp [hm, hlen, ih (page + 1)]
    intro fuel
    exact key fuel 1

/-- Witness for C10: a source whose first page is empty (length 0 ≠ 100)
satisfies the termination precondition. -/
theorem find_pipeline_id_termination_witness :
    ∃ fuel r,
      find_pipeline_id (fun _ => []) "proj" "bbbb" fuel 1 = some r :=
  find_pipeline_id_termination.1 (fun _ => []) "proj" "bbbb"
    ⟨1, le_refl 1, Or.inr (by decide)⟩

end Labhub
